import Mathlib

/-!
Verification of the computational core of kubectl-multi (kubestellar/kubectl-multi-plugin):
resource-type resolution (`DiscoverGVR`, `normalizeResourceType`, `matchesResourceType`,
`getDefaultGVR`), the column schema registry (`GetResourceColumns`) and the field
extraction engine (`ExtractColumnValue` with its specialized extractors) from
pkg/util/formatting.go, plus the label formatters `FormatLabels` (pkg/util) and
`formatLabels` (pkg/cmd/get/common.go).

Modelling conventions:
- A decoded Kubernetes object (`unstructured.Unstructured`) is a JSON-like tree `Value`;
  Go maps are association lists whose list order stands for Go's (unspecified) map
  iteration order.  float64 leaves, which no claim touches, are not modelled.
- The k8s accessors `unstructured.NestedString` etc. return (value, found, err); every
  caller in formatting.go treats `err != nil || !found` exactly like `!found` (and the
  accessors set found = false whenever err != nil), so they are modelled as `Option`.
- Wall-clock reads (`time.Now`, `time.Since`) are passed in explicitly as `now`, epoch
  seconds.  Timestamps are modelled at whole-second granularity: `parseRFC3339` accepts
  the canonical RFC-3339 forms without fractional seconds (as produced by the Kubernetes
  API); other strings are treated as unparseable.
- `strings.ToLower` / `strings.EqualFold` are modelled over the ASCII range, which covers
  every key the tables use.
-/

/-- A decoded JSON-like record (models `unstructured.Unstructured` / `interface{}` trees).
Go `map[string]interface{}` is an association list; `int` models JSON integers decoded
as `int64`. -/
inductive Value where
  | null : Value
  | bool (b : Bool) : Value
  | int (n : Int) : Value
  | str (s : String) : Value
  | arr (elems : List Value) : Value
  | obj (fields : List (String × Value)) : Value

/-- The record with no fields at all. -/
def emptyObj : Value := Value.obj []

/-- Models `unstructured.NestedFieldNoCopy`: walk nested maps along the field path;
absence of a field, or a non-map intermediate value, yields not-found (`none`). -/
def NestedFieldNoCopy (v : Value) : List String → Option Value
  | [] => some v
  | f :: rest =>
    match v with
    | Value.obj fields =>
      match List.lookup f fields with
      | some v' => NestedFieldNoCopy v' rest
      | none => none
    | _ => none

/-- Models `unstructured.NestedString`: found only if the leaf is a string. -/
def NestedString (v : Value) (path : List String) : Option String :=
  match NestedFieldNoCopy v path with
  | some (Value.str s) => some s
  | _ => none

/-- Models `unstructured.NestedSlice`. -/
def NestedSlice (v : Value) (path : List String) : Option (List Value) :=
  match NestedFieldNoCopy v path with
  | some (Value.arr l) => some l
  | _ => none

/-- Models `unstructured.NestedMap`. -/
def NestedMap (v : Value) (path : List String) : Option (List (String × Value)) :=
  match NestedFieldNoCopy v path with
  | some (Value.obj fields) => some fields
  | _ => none

/-- Models `unstructured.NestedInt64`. -/
def NestedInt64 (v : Value) (path : List String) : Option Int :=
  match NestedFieldNoCopy v path with
  | some (Value.int n) => some n
  | _ => none

/-- Models `unstructured.NestedBool`. -/
def NestedBool (v : Value) (path : List String) : Option Bool :=
  match NestedFieldNoCopy v path with
  | some (Value.bool b) => some b
  | _ => none

/-- All-strings check used by `NestedStringSlice`: the whole slice must consist of
strings, otherwise not-found. -/
def allStrings : List Value → Option (List String)
  | [] => some []
  | Value.str s :: rest => (allStrings rest).map (fun l => s :: l)
  | _ => none

/-- Models `unstructured.NestedStringSlice`. -/
def NestedStringSlice (v : Value) (path : List String) : Option (List String) :=
  match NestedFieldNoCopy v path with
  | some (Value.arr l) => allStrings l
  | _ => none

/-- Models `strings.ToLower` on the ASCII range (all table keys are ASCII). -/
def lowerStr (s : String) : String := ⟨s.data.map Char.toLower⟩

/-- Models `strings.EqualFold` on the ASCII range. -/
def eqFold (a b : String) : Bool := lowerStr a == lowerStr b

/-- Models `strings.HasSuffix`. -/
def hasSuffix (s suffix : String) : Bool := suffix.data.isSuffixOf s.data

/-- Splitter used to model `strings.Split` with a one-character separator. -/
def splitOnChar (sep : Char) : List Char → List Char → List String
  | [], acc => [⟨acc.reverse⟩]
  | c :: rest, acc =>
    if c = sep then ⟨acc.reverse⟩ :: splitOnChar sep rest []
    else splitOnChar sep rest (c :: acc)

/-- Models `strings.Split(s, ".")`. -/
def splitDots (s : String) : List String := splitOnChar '.' s.data []

/-- Models `strings.Join(parts, ",")`. -/
def joinComma : List String → String
  | [] => ""
  | [x] => x
  | x :: xs => x ++ "," ++ joinComma xs

/-- Byte-wise lexicographic "less or equal" on strings as character lists (UTF-8 byte
order and codepoint order agree), modelling the order used by Go's `sort.Strings`. -/
def charListLe : List Char → List Char → Bool
  | [], _ => true
  | _ :: _, [] => false
  | a :: as, b :: bs =>
    if a.toNat = b.toNat then charListLe as bs
    else decide (a.toNat < b.toNat)

/-- String order backing the model of `sort.Strings`. -/
def goStringLe (a b : String) : Bool := charListLe a.data b.data

/-- Models Go's `time.Duration.String()` for a non-negative whole number of seconds:
"90s" prints as "1m30s", "0s" for zero, hours/minutes/seconds decomposition above. -/
def goDurationAux (s : Nat) : String :=
  if s < 60 then toString s ++ "s"
  else if s < 3600 then toString (s / 60) ++ "m" ++ toString (s % 60) ++ "s"
  else toString (s / 3600) ++ "h" ++ toString ((s % 3600) / 60) ++ "m" ++ toString (s % 60) ++ "s"

/-- Models Go's `time.Duration.String()` for whole seconds, with the sign prefix. -/
def goDurationString (d : Int) : String :=
  if d < 0 then "-" ++ goDurationAux (-d).toNat else goDurationAux d.toNat

/-- Two-digit decimal parse. -/
def num2 (a b : Char) : Option Nat :=
  if 48 ≤ a.toNat ∧ a.toNat ≤ 57 ∧ 48 ≤ b.toNat ∧ b.toNat ≤ 57 then
    some ((a.toNat - 48) * 10 + (b.toNat - 48))
  else none

/-- Four-digit decimal parse. -/
def num4 (a b c d : Char) : Option Nat :=
  match num2 a b, num2 c d with
  | some hi, some lo => some (hi * 100 + lo)
  | _, _ => none

/-- Leap-year rule (proleptic Gregorian), as in Go's time package. -/
def isLeapYear (y : Int) : Bool := y % 4 = 0 && (y % 100 ≠ 0 || y % 400 = 0)

/-- Days in a month, as validated by Go's `time.Parse`. -/
def daysInMonth (y : Int) (m : Nat) : Nat :=
  if m = 2 then (if isLeapYear y then 29 else 28)
  else if m = 4 ∨ m = 6 ∨ m = 9 ∨ m = 11 then 30
  else 31

/-- Days since 1970-01-01 of a civil date (standard days-from-civil algorithm; Lean's
integer division on a positive divisor is floor division, which is what the algorithm
needs). -/
def daysFromCivil (y m d : Int) : Int :=
  let yAdj := if m ≤ 2 then y - 1 else y
  let era := yAdj / 400
  let yoe := yAdj - era * 400
  let mp := (m + 9) % 12
  let doy := (153 * mp + 2) / 5 + d - 1
  let doe := yoe * 365 + yoe / 4 - yoe / 100 + doy
  era * 146097 + doe - 719468

/-- Zone suffix of an RFC-3339 timestamp: "Z" or "+hh:mm" / "-hh:mm"; returns the offset
in seconds east of UTC. -/
def parseZone : List Char → Option Int
  | ['Z'] => some 0
  | [sgn, o1, o2, ':', o3, o4] =>
    match num2 o1 o2, num2 o3 o4 with
    | some hh, some mm =>
      if hh ≤ 23 ∧ mm ≤ 59 then
        if sgn = '+' then some (hh * 3600 + mm * 60)
        else if sgn = '-' then some (-(hh * 3600 + mm * 60 : Int))
        else none
      else none
    | _, _ => none
  | _ => none

/-- Models `time.Parse(time.RFC3339, s)` restricted to whole-second timestamps
("YYYY-MM-DDTHH:MM:SS" plus "Z" or a "+hh:mm"/"-hh:mm" offset), returning epoch
seconds; anything else — including fractional seconds, which no Kubernetes API
timestamp carries — is treated as unparseable. -/
def parseRFC3339 (s : String) : Option Int :=
  match s.data with
  | y1 :: y2 :: y3 :: y4 :: '-' :: m1 :: m2 :: '-' :: d1 :: d2 :: 'T' ::
      h1 :: h2 :: ':' :: mi1 :: mi2 :: ':' :: s1 :: s2 :: zone =>
    match num4 y1 y2 y3 y4, num2 m1 m2, num2 d1 d2, num2 h1 h2, num2 mi1 mi2, num2 s1 s2,
        parseZone zone with
    | some y, some mo, some d, some h, some mi, some sec, some off =>
      if 1 ≤ mo ∧ mo ≤ 12 ∧ 1 ≤ d ∧ d ≤ daysInMonth (Int.ofNat y) mo ∧
          h ≤ 23 ∧ mi ≤ 59 ∧ sec ≤ 59 then
        some (daysFromCivil (Int.ofNat y) (Int.ofNat mo) (Int.ofNat d) * 86400
          + (h * 3600 + mi * 60 + sec : Nat) - off)
      else none
    | _, _, _, _, _, _, _ => none
  | _ => none

/-- Models `schema.GroupVersionResource`. -/
structure GroupVersionResource where
  Group : String
  Version : String
  Resource : String
deriving DecidableEq, Repr

/-- Models `metav1.APIResource` (the fields `DiscoverGVR` consults). -/
structure APIResource where
  Name : String
  SingularName : String
  ShortNames : List String
  Namespaced : Bool
deriving DecidableEq, Repr

/-- Models `metav1.APIResourceList`: one group-version of the discovery catalog. -/
structure APIResourceList where
  GroupVersion : String
  APIResources : List APIResource
deriving DecidableEq, Repr

/-- Models `schema.ParseGroupVersion`: "" or "v1" have an empty group, "g/v" splits at
the slash, two or more slashes are a parse error (`none`). -/
def ParseGroupVersion (gv : String) : Option (String × String) :=
  match splitOnChar '/' gv.data [] with
  | [v] => some ("", v)
  | [g, v] => some (g, v)
  | _ => none

/-- The `aliases` table of `normalizeResourceType` (pkg/util/formatting.go). -/
def aliasTable : List (String × String) :=
  [("po", "pods"), ("svc", "services"), ("no", "nodes"), ("ns", "namespaces"),
   ("pv", "persistentvolumes"), ("pvc", "persistentvolumeclaims"), ("cm", "configmaps"),
   ("deploy", "deployments"), ("rs", "replicasets"), ("ds", "daemonsets"),
   ("sts", "statefulsets"), ("job", "jobs"), ("cj", "cronjobs"), ("ing", "ingresses"),
   ("ep", "endpoints"), ("sa", "serviceaccounts")]

/-- Models `normalizeResourceType`: alias lookup on the lower-cased input, otherwise
lower-case and append "s" unless it already ends in "s". -/
def normalizeResourceType (resourceType : String) : String :=
  match List.lookup (lowerStr resourceType) aliasTable with
  | some normalized => normalized
  | none =>
    let lower := lowerStr resourceType
    if hasSuffix lower "s" then lower else lower ++ "s"

/-- Models `matchesResourceType`: case-insensitive match against the plural name, the
singular name, or any short name. -/
def matchesResourceType (apiResource : APIResource) (resourceType : String) : Bool :=
  eqFold apiResource.Name resourceType || eqFold apiResource.SingularName resourceType ||
    apiResource.ShortNames.any (fun shortName => eqFold shortName resourceType)

/-- The `defaults` table of `getDefaultGVR` (pkg/util/formatting.go). -/
def defaultGVRTable : List (String × GroupVersionResource) :=
  [("pods", ⟨"", "v1", "pods"⟩),
   ("services", ⟨"", "v1", "services"⟩),
   ("nodes", ⟨"", "v1", "nodes"⟩),
   ("namespaces", ⟨"", "v1", "namespaces"⟩),
   ("persistentvolumes", ⟨"", "v1", "persistentvolumes"⟩),
   ("persistentvolumeclaims", ⟨"", "v1", "persistentvolumeclaims"⟩),
   ("configmaps", ⟨"", "v1", "configmaps"⟩),
   ("secrets", ⟨"", "v1", "secrets"⟩),
   ("deployments", ⟨"apps", "v1", "deployments"⟩),
   ("replicasets", ⟨"apps", "v1", "replicasets"⟩),
   ("daemonsets", ⟨"apps", "v1", "daemonsets"⟩),
   ("statefulsets", ⟨"apps", "v1", "statefulsets"⟩),
   ("jobs", ⟨"batch", "v1", "jobs"⟩),
   ("cronjobs", ⟨"batch", "v1", "cronjobs"⟩),
   ("ingresses", ⟨"networking.k8s.io", "v1", "ingresses"⟩),
   ("endpoints", ⟨"", "v1", "endpoints"⟩),
   ("serviceaccounts", ⟨"", "v1", "serviceaccounts"⟩)]

/-- Models `getDefaultGVR`: the static default table, with the core-group heuristic
`{Group: "", Version: "v1", Resource: resourceType}` when the table misses. -/
def getDefaultGVR (resourceType : String) : GroupVersionResource :=
  match List.lookup resourceType defaultGVRTable with
  | some gvr => gvr
  | none => ⟨"", "v1", resourceType⟩

/-- Models the inner loop of `DiscoverGVR` over one group-version's resources:
the first matching descriptor wins. -/
def discoverScanResources (g v : String) (nt : String) :
    List APIResource → Option (GroupVersionResource × Bool)
  | [] => none
  | r :: rs =>
    if matchesResourceType r nt then some (⟨g, v, r.Name⟩, r.Namespaced)
    else discoverScanResources g v nt rs

/-- Models the outer loop of `DiscoverGVR` over the discovery catalog: group-versions
that fail to parse are skipped (`continue`); iteration order decides ties. -/
def discoverScanCatalog : List APIResourceList → String → Option (GroupVersionResource × Bool)
  | [], _ => none
  | l :: rest, nt =>
    match ParseGroupVersion l.GroupVersion with
    | none => discoverScanCatalog rest nt
    | some (g, v) =>
      match discoverScanResources g v nt l.APIResources with
      | some found => some found
      | none => discoverScanCatalog rest nt

/-- Models `DiscoverGVR` on a successfully queried catalog (the only error path in the
source is the discovery query itself, modelled here by the catalog being supplied);
returns the descriptor and the namespaced flag.  On no catalog match the static default
table is consulted and `namespaced = true` is returned for that fallback path. -/
def DiscoverGVR (catalog : List APIResourceList) (resourceType : String) :
    GroupVersionResource × Bool :=
  let normalizedType := normalizeResourceType resourceType
  match discoverScanCatalog catalog normalizedType with
  | some found => found
  | none => (getDefaultGVR normalizedType, true)

/-- Models `ColumnDefinition` (pkg/util/formatting.go). -/
structure ColumnDefinition where
  Name : String
  JSONPath : String
  DefaultValue : String
deriving DecidableEq, Repr

/-- The `columns` table of `GetResourceColumns` (pkg/util/formatting.go), in source
order. -/
def resourceColumnsTable : List (String × List ColumnDefinition) :=
  [("pods",
    [⟨"READY", "status.containerStatuses", "<unknown>"⟩,
     ⟨"STATUS", "status.phase", "<unknown>"⟩,
     ⟨"RESTARTS", "status.containerStatuses", "<unknown>"⟩,
     ⟨"AGE", "metadata.creationTimestamp", "<unknown>"⟩]),
   ("services",
    [⟨"TYPE", "spec.type", "ClusterIP"⟩,
     ⟨"CLUSTER-IP", "spec.clusterIP", "<none>"⟩,
     ⟨"EXTERNAL-IP", "status.loadBalancer.ingress", "<none>"⟩,
     ⟨"PORT(S)", "spec.ports", "<none>"⟩,
     ⟨"AGE", "metadata.creationTimestamp", "<unknown>"⟩]),
   ("deployments",
    [⟨"READY", "status.readyReplicas", "0"⟩,
     ⟨"UP-TO-DATE", "status.updatedReplicas", "0"⟩,
     ⟨"AVAILABLE", "status.availableReplicas", "0"⟩,
     ⟨"AGE", "metadata.creationTimestamp", "<unknown>"⟩]),
   ("replicasets",
    [⟨"DESIRED", "spec.replicas", "0"⟩,
     ⟨"CURRENT", "status.replicas", "0"⟩,
     ⟨"READY", "status.readyReplicas", "0"⟩,
     ⟨"AGE", "metadata.creationTimestamp", "<unknown>"⟩]),
   ("daemonsets",
    [⟨"DESIRED", "status.desiredNumberScheduled", "0"⟩,
     ⟨"CURRENT", "status.currentNumberScheduled", "0"⟩,
     ⟨"READY", "status.numberReady", "0"⟩,
     ⟨"UP-TO-DATE", "status.updatedNumberScheduled", "0"⟩,
     ⟨"AVAILABLE", "status.numberAvailable", "0"⟩,
     ⟨"NODE SELECTOR", "spec.template.spec.nodeSelector", "<none>"⟩,
     ⟨"AGE", "metadata.creationTimestamp", "<unknown>"⟩]),
   ("statefulsets",
    [⟨"READY", "status.readyReplicas", "0"⟩,
     ⟨"AGE", "metadata.creationTimestamp", "<unknown>"⟩]),
   ("jobs",
    [⟨"COMPLETIONS", "status", "<none>"⟩,
     ⟨"DURATION", "status.startTime", "<unknown>"⟩,
     ⟨"AGE", "metadata.creationTimestamp", "<unknown>"⟩]),
   ("cronjobs",
    [⟨"SCHEDULE", "spec.schedule", "<none>"⟩,
     ⟨"SUSPEND", "spec.suspend", "False"⟩,
     ⟨"ACTIVE", "status.active", "0"⟩,
     ⟨"LAST SCHEDULE", "status.lastScheduleTime", "<none>"⟩,
     ⟨"AGE", "metadata.creationTimestamp", "<unknown>"⟩]),
   ("configmaps",
    [⟨"DATA", "data", "0"⟩,
     ⟨"AGE", "metadata.creationTimestamp", "<unknown>"⟩]),
   ("secrets",
    [⟨"TYPE", "type", "Opaque"⟩,
     ⟨"DATA", "data", "0"⟩,
     ⟨"AGE", "metadata.creationTimestamp", "<unknown>"⟩]),
   ("persistentvolumes",
    [⟨"CAPACITY", "spec.capacity", "<unknown>"⟩,
     ⟨"ACCESS MODES", "spec.accessModes", "<unknown>"⟩,
     ⟨"RECLAIM POLICY", "spec.persistentVolumeReclaimPolicy", "<unknown>"⟩,
     ⟨"STATUS", "status.phase", "<unknown>"⟩,
     ⟨"CLAIM", "spec.claimRef", "<none>"⟩,
     ⟨"STORAGE CLASS", "spec.storageClassName", "<none>"⟩,
     ⟨"REASON", "status.reason", "<none>"⟩,
     ⟨"AGE", "metadata.creationTimestamp", "<unknown>"⟩]),
   ("persistentvolumeclaims",
    [⟨"STATUS", "status.phase", "<unknown>"⟩,
     ⟨"VOLUME", "spec.volumeName", "<none>"⟩,
     ⟨"CAPACITY", "status.capacity", "<unknown>"⟩,
     ⟨"ACCESS MODES", "status.accessModes", "<unknown>"⟩,
     ⟨"STORAGE CLASS", "spec.storageClassName", "<none>"⟩,
     ⟨"AGE", "metadata.creationTimestamp", "<unknown>"⟩]),
   ("ingresses",
    [⟨"HOSTS", "spec.rules", "<none>"⟩,
     ⟨"ADDRESS", "status.loadBalancer.ingress", "<none>"⟩,
     ⟨"PORTS", "spec.rules", "<none>"⟩,
     ⟨"AGE", "metadata.creationTimestamp", "<unknown>"⟩]),
   ("endpoints",
    [⟨"ENDPOINTS", "subsets", "<none>"⟩,
     ⟨"AGE", "metadata.creationTimestamp", "<unknown>"⟩]),
   ("serviceaccounts",
    [⟨"SECRETS", "secrets", "0"⟩,
     ⟨"AGE", "metadata.creationTimestamp", "<unknown>"⟩]),
   ("resourcequotas",
    [⟨"AGE", "metadata.creationTimestamp", "<unknown>"⟩,
     ⟨"HARD", "status.hard", "<none>"⟩,
     ⟨"USED", "status.used", "<none>"⟩]),
   ("limitranges",
    [⟨"CREATED AT", "metadata.creationTimestamp", "<unknown>"⟩]),
   ("networkpolicies",
    [⟨"POD-SELECTOR", "spec.podSelector", "<none>"⟩,
     ⟨"POLICY-TYPES", "spec.policyTypes", "<none>"⟩,
     ⟨"AGE", "metadata.creationTimestamp", "<unknown>"⟩]),
   ("roles",
    [⟨"CREATED-AT", "metadata.creationTimestamp", "<unknown>"⟩]),
   ("storageclasses",
    [⟨"PROVISIONER", "provisioner", "<none>"⟩,
     ⟨"RECLAIMPOLICY", "reclaimPolicy", "Delete"⟩,
     ⟨"VOLUMEBINDINGMODE", "volumeBindingMode", "Immediate"⟩,
     ⟨"ALLOWVOLUMEEXPANSION", "allowVolumeExpansion", "false"⟩,
     ⟨"AGE", "metadata.creationTimestamp", "<unknown>"⟩]),
   ("events",
    [⟨"LAST SEEN", "lastTimestamp", "<unknown>"⟩,
     ⟨"TYPE", "type", "<unknown>"⟩,
     ⟨"REASON", "reason", "<unknown>"⟩,
     ⟨"OBJECT", "", "<unknown>"⟩,
     ⟨"MESSAGE", "message", "<unknown>"⟩])]

/-- Models `GetResourceColumns`: case-insensitive lookup in the static column table,
falling back to the single AGE column for unknown resource types. -/
def GetResourceColumns (resourceType : String) : List ColumnDefinition :=
  match List.lookup (lowerStr resourceType) resourceColumnsTable with
  | some cols => cols
  | none => [⟨"AGE", "metadata.creationTimestamp", "<unknown>"⟩]

/-- Models `FormatLabels` (pkg/util/formatting.go): "<none>" for an empty map, else the
"k=v" renderings sorted (`sort.Strings`, modelled as insertion sort over the same
order — any correct sort of a linearly ordered list yields the same result) and
comma-joined.  The association list stands for the Go map in some iteration order. -/
def FormatLabels (labels : List (String × String)) : String :=
  if labels.length = 0 then "<none>"
  else
    joinComma (List.insertionSort (fun a b => goStringLe a b = true)
      (labels.map (fun p => p.1 ++ "=" ++ p.2)))

/-- Models `formatLabels` (pkg/cmd/get/common.go): "<none>" for an empty map, else the
"k=v" renderings comma-joined in map-iteration order, without sorting. -/
def formatLabels (labels : List (String × String)) : String :=
  if labels.length = 0 then "<none>"
  else
    labels.foldl
      (fun result p =>
        (if result ≠ "" then result ++ "," else result) ++ p.1 ++ "=" ++ p.2) ""

/-- Ready/total counting loop of `extractReadyValue`. -/
def countReady : List Value → Nat
  | [] => 0
  | Value.obj fields :: rest =>
    (match List.lookup "ready" fields with
     | some (Value.bool true) => 1
     | _ => 0) + countReady rest
  | _ :: rest => countReady rest

/-- Models `extractReadyValue`: "ready/total" over status.containerStatuses, "0/0" when
the list is absent. -/
def extractReadyValue (obj : Value) : String :=
  match NestedSlice obj ["status", "containerStatuses"] with
  | none => "0/0"
  | some containerStatuses =>
    toString (countReady containerStatuses) ++ "/" ++ toString containerStatuses.length

/-- Models `extractStatusValue`. -/
def extractStatusValue (obj : Value) : String :=
  match NestedString obj ["status", "phase"] with
  | none => "<unknown>"
  | some phase => phase

/-- Restart summing loop of `extractRestartsValue`. -/
def sumRestarts : List Value → Int
  | [] => 0
  | Value.obj fields :: rest =>
    (match List.lookup "restartCount" fields with
     | some (Value.int n) => n
     | _ => 0) + sumRestarts rest
  | _ :: rest => sumRestarts rest

/-- Models `extractRestartsValue`: sum of restartCount across container statuses, "0"
when the list is absent. -/
def extractRestartsValue (obj : Value) : String :=
  match NestedSlice obj ["status", "containerStatuses"] with
  | none => "0"
  | some containerStatuses => toString (sumRestarts containerStatuses)

/-- Models `extractTypeValue`. -/
def extractTypeValue (obj : Value) : String :=
  match NestedString obj ["spec", "type"] with
  | none => "ClusterIP"
  | some svcType => svcType

/-- Models `extractClusterIPValue`. -/
def extractClusterIPValue (obj : Value) : String :=
  match NestedString obj ["spec", "clusterIP"] with
  | none => "<none>"
  | some clusterIP => clusterIP

/-- Collection loop of `extractExternalIPValue`: per ingress entry take the "ip" string
if the key is present (a present non-string "ip" contributes nothing and the hostname is
not consulted), else the "hostname" string. -/
def collectIngressIPs : List Value → List String
  | [] => []
  | Value.obj fields :: rest =>
    (match List.lookup "ip" fields with
     | some (Value.str ipStr) => [ipStr]
     | some _ => []
     | none =>
       match List.lookup "hostname" fields with
       | some (Value.str hostStr) => [hostStr]
       | _ => []) ++ collectIngressIPs rest
  | _ :: rest => collectIngressIPs rest

/-- Models `extractExternalIPValue`: "<none>" when status.loadBalancer.ingress is absent
or empty, the comma-joined collected values when any, "<pending>" otherwise. -/
def extractExternalIPValue (obj : Value) : String :=
  match NestedSlice obj ["status", "loadBalancer", "ingress"] with
  | none => "<none>"
  | some ingress =>
    if ingress.length = 0 then "<none>"
    else
      let ips := collectIngressIPs ingress
      if ips.length > 0 then joinComma ips else "<pending>"

/-- Collection loop of `extractPortsValue`: "port" int64 fields rendered in decimal. -/
def collectPortStrings : List Value → List String
  | [] => []
  | Value.obj fields :: rest =>
    (match List.lookup "port" fields with
     | some (Value.int p) => [toString p]
     | _ => []) ++ collectPortStrings rest
  | _ :: rest => collectPortStrings rest

/-- Models `extractPortsValue`: "<none>" when spec.ports is absent or empty, else the
comma-join of the collected port numbers (which is the empty string when no entry
carries an int64 "port"). -/
def extractPortsValue (obj : Value) : String :=
  match NestedSlice obj ["spec", "ports"] with
  | none => "<none>"
  | some ports =>
    if ports.length = 0 then "<none>"
    else joinComma (collectPortStrings ports)

/-- Models `extractUpToDateValue`. -/
def extractUpToDateValue (obj : Value) : String :=
  match NestedInt64 obj ["status", "updatedReplicas"] with
  | none => "0"
  | some updated => toString updated

/-- Models `extractAvailableValue`. -/
def extractAvailableValue (obj : Value) : String :=
  match NestedInt64 obj ["status", "availableReplicas"] with
  | none => "0"
  | some available => toString available

/-- Models `extractDesiredValue`. -/
def extractDesiredValue (obj : Value) : String :=
  match NestedInt64 obj ["spec", "replicas"] with
  | none => "0"
  | some desired => toString desired

/-- Models `extractCurrentValue`. -/
def extractCurrentValue (obj : Value) : String :=
  match NestedInt64 obj ["status", "replicas"] with
  | none => "0"
  | some current => toString current

/-- Models `extractCompletionsValue`. -/
def extractCompletionsValue (obj : Value) : String :=
  match NestedInt64 obj ["status", "succeeded"], NestedInt64 obj ["spec", "completions"] with
  | none, _ => "<none>"
  | some succeeded, none => toString succeeded ++ "/1"
  | some succeeded, some completions => toString succeeded ++ "/" ++ toString completions

/-- Models `extractDurationValue`: completion minus start when both parse, `now` as the
end bound when completionTime is absent, "<unknown>" when startTime is missing or either
present timestamp fails to parse. -/
def extractDurationValue (obj : Value) (now : Int) : String :=
  match NestedString obj ["status", "startTime"] with
  | none => "<unknown>"
  | some startTime =>
    match parseRFC3339 startTime with
    | none => "<unknown>"
    | some start =>
      match NestedString obj ["status", "completionTime"] with
      | some completionTime =>
        match parseRFC3339 completionTime with
        | none => "<unknown>"
        | some endTime => goDurationString (endTime - start)
      | none => goDurationString (now - start)

/-- Models `extractDataCountValue`: size of data plus binaryData. -/
def extractDataCountValue (obj : Value) : String :=
  let dataCount := match NestedMap obj ["data"] with
    | some m => m.length
    | none => 0
  let binaryCount := match NestedMap obj ["binaryData"] with
    | some m => m.length
    | none => 0
  toString (dataCount + binaryCount)

/-- First-value loop of `extractCapacityValue` (map-iteration order is the list
order). -/
def firstCapacityValue : List (String × Value) → Option String
  | [] => none
  | (_, Value.str s) :: _ => some s
  | (_, Value.obj fields) :: rest =>
    (match List.lookup "string" fields with
     | some (Value.str s) => some s
     | _ => none).orElse (fun _ => firstCapacityValue rest)
  | _ :: rest => firstCapacityValue rest

/-- Models `extractCapacityValue`: spec.capacity first, then status.capacity; the first
string-like value in map-iteration order, "<unknown>" otherwise. -/
def extractCapacityValue (obj : Value) : String :=
  let capacity := match NestedMap obj ["spec", "capacity"] with
    | some m => some m
    | none => NestedMap obj ["status", "capacity"]
  match capacity with
  | none => "<unknown>"
  | some m =>
    if m.length = 0 then "<unknown>"
    else
      match firstCapacityValue m with
      | some s => s
      | none => "<unknown>"

/-- Models `extractAccessModesValue`: spec.accessModes first, then status.accessModes. -/
def extractAccessModesValue (obj : Value) : String :=
  let modes := match NestedStringSlice obj ["spec", "accessModes"] with
    | some l => some l
    | none => NestedStringSlice obj ["status", "accessModes"]
  match modes with
  | none => "<unknown>"
  | some l => if l.length = 0 then "<unknown>" else joinComma l

/-- Models `extractClaimValue`: "namespace/name" from spec.claimRef, name alone when the
namespace is missing, "<none>" otherwise. -/
def extractClaimValue (obj : Value) : String :=
  match NestedMap obj ["spec", "claimRef"] with
  | none => "<none>"
  | some claimRef =>
    match NestedString (Value.obj claimRef) ["name"],
        NestedString (Value.obj claimRef) ["namespace"] with
    | some name, some namespc => namespc ++ "/" ++ name
    | some name, none => name
    | none, _ => "<none>"

/-- Models `extractStorageClassValue`. -/
def extractStorageClassValue (obj : Value) : String :=
  match NestedString obj ["spec", "storageClassName"] with
  | none => "<none>"
  | some sc => sc

/-- Host collection loop of `extractHostsValue` (non-empty "host" strings only). -/
def collectHosts : List Value → List String
  | [] => []
  | Value.obj fields :: rest =>
    (match List.lookup "host" fields with
     | some (Value.str hostStr) => if hostStr ≠ "" then [hostStr] else []
     | _ => []) ++ collectHosts rest
  | _ :: rest => collectHosts rest

/-- Models `extractHostsValue`. -/
def extractHostsValue (obj : Value) : String :=
  match NestedSlice obj ["spec", "rules"] with
  | none => "<none>"
  | some rules =>
    if rules.length = 0 then "<none>"
    else
      let hosts := collectHosts rules
      if hosts.length > 0 then joinComma hosts else "<none>"

/-- Models `extractAddressValue` (same logic as the external IP). -/
def extractAddressValue (obj : Value) : String := extractExternalIPValue obj

/-- Whether some ingress rule has an http.paths slice with at least one path (the
condition under which `extractIngressPortsValue` records port "80"). -/
def anyHTTPPaths : List Value → Bool
  | [] => false
  | Value.obj fields :: rest =>
    (match List.lookup "http" fields with
     | some (Value.obj httpFields) =>
       match List.lookup "paths" httpFields with
       | some (Value.arr paths) => paths.length > 0
       | _ => false
     | _ => false) || anyHTTPPaths rest
  | _ :: rest => anyHTTPPaths rest

/-- Models `extractIngressPortsValue`: port "80" when some rule has http paths, "443"
when spec.tls is present and non-empty; the Go string-set is rendered in insertion
order. -/
def extractIngressPortsValue (obj : Value) : String :=
  match NestedSlice obj ["spec", "rules"] with
  | none => "<none>"
  | some rules =>
    if rules.length = 0 then "<none>"
    else
      let http80 : List String := if anyHTTPPaths rules then ["80"] else []
      let tls443 : List String :=
        match NestedSlice obj ["spec", "tls"] with
        | some tls => if tls.length > 0 then ["443"] else []
        | none => []
      let portSet := http80 ++ tls443
      if portSet.length > 0 then joinComma portSet else "<none>"

/-- ip:port cross product for one subset of `extractEndpointsValue`. -/
def crossEndpoints (addresses ports : List Value) : List String :=
  addresses.foldr
    (fun addr acc =>
      (match addr with
       | Value.obj addrFields =>
         match List.lookup "ip" addrFields with
         | some (Value.str ipStr) =>
           ports.foldr
             (fun port pacc =>
               (match port with
                | Value.obj portFields =>
                  match List.lookup "port" portFields with
                  | some (Value.int p) => [ipStr ++ ":" ++ toString p]
                  | _ => []
                | _ => []) ++ pacc) []
         | _ => []
       | _ => []) ++ acc) []

/-- Subset loop of `extractEndpointsValue`: a subset missing either list (or with an
empty one) is skipped entirely. -/
def collectEndpoints : List Value → List String
  | [] => []
  | subset :: rest =>
    (match subset with
     | Value.obj subsetFields =>
       match NestedSlice (Value.obj subsetFields) ["addresses"],
           NestedSlice (Value.obj subsetFields) ["ports"] with
       | some addresses, some ports =>
         if addresses.length > 0 ∧ ports.length > 0 then crossEndpoints addresses ports
         else []
       | _, _ => []
     | _ => []) ++ collectEndpoints rest

/-- Models `extractEndpointsValue`. -/
def extractEndpointsValue (obj : Value) : String :=
  match NestedSlice obj ["subsets"] with
  | none => "<none>"
  | some subsets =>
    if subsets.length = 0 then "<none>"
    else
      let endpoints := collectEndpoints subsets
      if endpoints.length > 0 then joinComma endpoints else "<none>"

/-- Models `extractSecretsValue`. -/
def extractSecretsValue (obj : Value) : String :=
  match NestedSlice obj ["secrets"] with
  | none => "0"
  | some secrets => toString secrets.length

/-- key:value rendering loop of `formatResourceLimits`. -/
def collectLimitParts : List (String × Value) → List String
  | [] => []
  | (key, Value.str v) :: rest => (key ++ ":" ++ v) :: collectLimitParts rest
  | (key, Value.obj fields) :: rest =>
    (match List.lookup "string" fields with
     | some (Value.str s) => [key ++ ":" ++ s]
     | _ => []) ++ collectLimitParts rest
  | _ :: rest => collectLimitParts rest

/-- Models `formatResourceLimits` (the `found` flag is the `Option`). -/
def formatResourceLimits (limits : Option (List (String × Value))) : String :=
  match limits with
  | none => "<none>"
  | some m =>
    if m.length = 0 then "<none>"
    else
      let parts := collectLimitParts m
      if parts.length > 0 then joinComma parts else "<none>"

/-- Models `extractHardValue`. -/
def extractHardValue (obj : Value) : String :=
  formatResourceLimits (NestedMap obj ["status", "hard"])

/-- Models `extractUsedValue`. -/
def extractUsedValue (obj : Value) : String :=
  formatResourceLimits (NestedMap obj ["status", "used"])

/-- k=v rendering loop shared by the pod-selector and node-selector extractors (string
values only). -/
def collectLabelPairs : List (String × Value) → List String
  | [] => []
  | (k, Value.str v) :: rest => (k ++ "=" ++ v) :: collectLabelPairs rest
  | _ :: rest => collectLabelPairs rest

/-- Models `extractPodSelectorValue`. -/
def extractPodSelectorValue (obj : Value) : String :=
  match NestedMap obj ["spec", "podSelector", "matchLabels"] with
  | none => "<none>"
  | some selector =>
    if selector.length = 0 then "<none>"
    else
      let labels := collectLabelPairs selector
      if labels.length > 0 then joinComma labels else "<none>"

/-- Models `extractPolicyTypesValue`. -/
def extractPolicyTypesValue (obj : Value) : String :=
  match NestedStringSlice obj ["spec", "policyTypes"] with
  | none => "<none>"
  | some types => if types.length = 0 then "<none>" else joinComma types

/-- Models `extractLastSeenValue`: lastTimestamp, falling back to firstTimestamp,
rendered as elapsed time (`time.Since` rounded to seconds) with an "ago" suffix. -/
def extractLastSeenValue (obj : Value) (now : Int) : String :=
  let timestamp := match NestedString obj ["lastTimestamp"] with
    | some lastTimestamp => some lastTimestamp
    | none => NestedString obj ["firstTimestamp"]
  match timestamp with
  | none => "<unknown>"
  | some ts =>
    match parseRFC3339 ts with
    | none => "<unknown>"
    | some t => goDurationString (now - t) ++ " ago"

/-- Models `extractObjectValue`. -/
def extractObjectValue (obj : Value) : String :=
  match NestedString obj ["involvedObject", "kind"],
      NestedString obj ["involvedObject", "name"] with
  | some kind, some name => kind ++ "/" ++ name
  | _, _ => "<unknown>"

/-- Models `extractNodeSelectorValue`. -/
def extractNodeSelectorValue (obj : Value) : String :=
  match NestedMap obj ["spec", "template", "spec", "nodeSelector"] with
  | none => "<none>"
  | some selector =>
    if selector.length = 0 then "<none>"
    else
      let selectors := collectLabelPairs selector
      if selectors.length > 0 then joinComma selectors else "<none>"

/-- Models `extractAllowVolumeExpansionValue`. -/
def extractAllowVolumeExpansionValue (obj : Value) : String :=
  match NestedBool obj ["allowVolumeExpansion"] with
  | none => "false"
  | some allow => toString allow

/-- Models `extractScheduleValue`. -/
def extractScheduleValue (obj : Value) : String :=
  match NestedString obj ["spec", "schedule"] with
  | none => "<none>"
  | some schedule => schedule

/-- Models `extractSuspendValue` (note the capitalized absent default "False" against
the lower-case formatted booleans). -/
def extractSuspendValue (obj : Value) : String :=
  match NestedBool obj ["spec", "suspend"] with
  | none => "False"
  | some suspend => toString suspend

/-- Models `extractActiveValue`. -/
def extractActiveValue (obj : Value) : String :=
  match NestedSlice obj ["status", "active"] with
  | none => "0"
  | some active => toString active.length

/-- Models `extractLastScheduleValue`. -/
def extractLastScheduleValue (obj : Value) (now : Int) : String :=
  match NestedString obj ["status", "lastScheduleTime"] with
  | none => "<none>"
  | some lastSchedule =>
    match parseRFC3339 lastSchedule with
    | none => "<none>"
    | some t => goDurationString (now - t) ++ " ago"

/-- Models `extractCreatedAtValue`. -/
def extractCreatedAtValue (obj : Value) (now : Int) : String :=
  match NestedString obj ["metadata", "creationTimestamp"] with
  | none => "<unknown>"
  | some created =>
    match parseRFC3339 created with
    | none => "<unknown>"
    | some t => goDurationString (now - t)

/-- The column-name dispatch of `ExtractColumnValue` (the Go switch over display names,
modelled as a first-match association table; the keys are pairwise distinct, so the two
are equivalent).  Extractors that never read the clock ignore the `now` argument. -/
def extractorTable : List (String × (Value → Int → String)) :=
  [("READY", fun obj _ => extractReadyValue obj),
   ("STATUS", fun obj _ => extractStatusValue obj),
   ("RESTARTS", fun obj _ => extractRestartsValue obj),
   ("TYPE", fun obj _ => extractTypeValue obj),
   ("CLUSTER-IP", fun obj _ => extractClusterIPValue obj),
   ("EXTERNAL-IP", fun obj _ => extractExternalIPValue obj),
   ("PORT(S)", fun obj _ => extractPortsValue obj),
   ("UP-TO-DATE", fun obj _ => extractUpToDateValue obj),
   ("AVAILABLE", fun obj _ => extractAvailableValue obj),
   ("DESIRED", fun obj _ => extractDesiredValue obj),
   ("CURRENT", fun obj _ => extractCurrentValue obj),
   ("COMPLETIONS", fun obj _ => extractCompletionsValue obj),
   ("DURATION", fun obj now => extractDurationValue obj now),
   ("DATA", fun obj _ => extractDataCountValue obj),
   ("CAPACITY", fun obj _ => extractCapacityValue obj),
   ("ACCESS MODES", fun obj _ => extractAccessModesValue obj),
   ("CLAIM", fun obj _ => extractClaimValue obj),
   ("STORAGE CLASS", fun obj _ => extractStorageClassValue obj),
   ("HOSTS", fun obj _ => extractHostsValue obj),
   ("ADDRESS", fun obj _ => extractAddressValue obj),
   ("PORTS", fun obj _ => extractIngressPortsValue obj),
   ("ENDPOINTS", fun obj _ => extractEndpointsValue obj),
   ("SECRETS", fun obj _ => extractSecretsValue obj),
   ("HARD", fun obj _ => extractHardValue obj),
   ("USED", fun obj _ => extractUsedValue obj),
   ("POD-SELECTOR", fun obj _ => extractPodSelectorValue obj),
   ("POLICY-TYPES", fun obj _ => extractPolicyTypesValue obj),
   ("LAST SEEN", fun obj now => extractLastSeenValue obj now),
   ("OBJECT", fun obj _ => extractObjectValue obj),
   ("NODE SELECTOR", fun obj _ => extractNodeSelectorValue obj),
   ("ALLOWVOLUMEEXPANSION", fun obj _ => extractAllowVolumeExpansionValue obj),
   ("SCHEDULE", fun obj _ => extractScheduleValue obj),
   ("SUSPEND", fun obj _ => extractSuspendValue obj),
   ("ACTIVE", fun obj _ => extractActiveValue obj),
   ("LAST SCHEDULE", fun obj now => extractLastScheduleValue obj now),
   ("CREATED AT", fun obj now => extractCreatedAtValue obj now),
   ("CREATED-AT", fun obj now => extractCreatedAtValue obj now)]

/-- Models `ExtractColumnValue`: an empty JSONPath short-circuits to the default before
any dispatch; otherwise dispatch on the display name, falling back to the generic
dot-path traversal with the column default on any miss. -/
def ExtractColumnValue (obj : Value) (column : ColumnDefinition) (now : Int) : String :=
  if column.JSONPath = "" then column.DefaultValue
  else
    match List.lookup column.Name extractorTable with
    | some extractor => extractor obj now
    | none =>
      match NestedString obj (splitDots column.JSONPath) with
      | none => column.DefaultValue
      | some val => val

/-! ### Helper lemmas -/

theorem lookup_mem {α β : Type} [BEq α] [LawfulBEq α] {k : α} {v : β} :
    ∀ {l : List (α × β)}, List.lookup k l = some v → (k, v) ∈ l
  | [], h => by simp at h
  | (a, b) :: es, h => by
    rw [List.lookup_cons] at h
    by_cases hk : k == a
    · simp [hk] at h
      subst h
      simp [eq_of_beq hk]
    · simp [hk] at h
      exact List.mem_cons_of_mem _ (lookup_mem h)

theorem char_eq_of_toNat (a b : Char) (h : a.toNat = b.toNat) : a = b :=
  Char.ext (UInt32.ext h)

theorem charListLe_total : ∀ as bs, charListLe as bs = true ∨ charListLe bs as = true
  | [], _ => Or.inl rfl
  | _ :: _, [] => Or.inr rfl
  | a :: as, b :: bs => by
    by_cases h : a.toNat = b.toNat
    · rcases charListLe_total as bs with ih | ih
      · left; simp [charListLe, h, ih]
      · right; simp [charListLe, h.symm, ih]
    · by_cases h2 : a.toNat < b.toNat
      · left; simp [charListLe, h, h2]
      · right
        have h3 : b.toNat < a.toNat := by omega
        have h4 : ¬ b.toNat = a.toNat := by omega
        simp [charListLe, h4, h3]

theorem charListLe_trans : ∀ as bs cs, charListLe as bs = true → charListLe bs cs = true →
    charListLe as cs = true
  | [], _, _, _, _ => rfl
  | _ :: _, [], _, h1, _ => by simp [charListLe] at h1
  | _ :: _, _ :: _, [], _, h2 => by simp [charListLe] at h2
  | a :: as, b :: bs, c :: cs, h1, h2 => by
    simp only [charListLe] at h1 h2 ⊢
    by_cases hab : a.toNat = b.toNat <;> by_cases hbc : b.toNat = c.toNat
    · have hac : a.toNat = c.toNat := by omega
      simp only [hab, if_true, hbc] at h1 h2
      simp only [hac, if_true]
      exact charListLe_trans as bs cs (by simpa using h1) (by simpa using h2)
    · simp only [hab, if_pos rfl] at h1
      simp only [if_neg hbc] at h2
      have hlt : b.toNat < c.toNat := by simpa using h2
      have hac : ¬ a.toNat = c.toNat := by omega
      simp only [if_neg hac]
      simp
      omega
    · simp only [if_neg hab] at h1
      have hlt : a.toNat < b.toNat := by simpa using h1
      simp only [hbc] at hlt
      have hac : ¬ a.toNat = c.toNat := by omega
      simp only [if_neg hac]
      simp
      omega
    · simp only [if_neg hab] at h1
      simp only [if_neg hbc] at h2
      have l1 : a.toNat < b.toNat := by simpa using h1
      have l2 : b.toNat < c.toNat := by simpa using h2
      have hac : ¬ a.toNat = c.toNat := by omega
      simp only [if_neg hac]
      simp
      omega

theorem charListLe_antisymm : ∀ as bs, charListLe as bs = true → charListLe bs as = true →
    as = bs
  | [], [], _, _ => rfl
  | [], _ :: _, _, h2 => by simp [charListLe] at h2
  | _ :: _, [], h1, _ => by simp [charListLe] at h1
  | a :: as, b :: bs, h1, h2 => by
    simp only [charListLe] at h1 h2
    by_cases hab : a.toNat = b.toNat
    · have ht := charListLe_antisymm as bs (by simpa [hab] using h1) (by simpa [hab.symm] using h2)
      rw [char_eq_of_toNat a b hab, ht]
    · have hba : ¬ b.toNat = a.toNat := fun hx => hab hx.symm
      simp only [if_neg hab] at h1
      simp only [if_neg hba] at h2
      simp at h1 h2
      omega

theorem goStringLe_antisymm (a b : String) (h1 : goStringLe a b = true)
    (h2 : goStringLe b a = true) : a = b := by
  cases a with
  | mk da =>
    cases b with
    | mk db =>
      exact congrArg String.mk (charListLe_antisymm da db h1 h2)

/-- Extractors read the clock only through `now`, and never on the empty record (every
clock-using extractor short-circuits on a missing timestamp). -/
theorem extractorTable_empty_now :
    ∀ p ∈ extractorTable, ∀ now : Int, p.2 emptyObj now = p.2 emptyObj 0 := by
  intro p hp now
  simp only [extractorTable] at hp
  fin_cases hp <;> rfl

theorem ExtractColumnValue_empty_now (c : ColumnDefinition) (now : Int) :
    ExtractColumnValue emptyObj c now = ExtractColumnValue emptyObj c 0 := by
  by_cases hp : c.JSONPath = ""
  · simp [ExtractColumnValue, hp]
  · simp only [ExtractColumnValue, if_neg hp]
    cases h : List.lookup c.Name extractorTable with
    | none => simp [h]
    | some extractor =>
      simp only [h]
      exact extractorTable_empty_now (c.Name, extractor) (lookup_mem h) now

/-- On the empty record, every column of the static registry renders to a non-empty
default or sentinel (checked by evaluation over the whole table). -/
theorem registry_cols_empty_nonempty :
    ∀ p ∈ resourceColumnsTable, ∀ c ∈ p.2, ExtractColumnValue emptyObj c 0 ≠ "" := by
  decide

/-! ### Concrete records used by witnesses and counterexamples -/

/-- A pod record whose status.phase is present but the empty string. -/
def podEmptyPhase : Value :=
  Value.obj [("status", Value.obj [("phase", Value.str "")])]

/-- A job record with start 2024-01-01T00:00:00Z and completion 90 seconds later. -/
def jobRecord90 : Value :=
  Value.obj [("status", Value.obj
    [("startTime", Value.str "2024-01-01T00:00:00Z"),
     ("completionTime", Value.str "2024-01-01T00:01:30Z")])]

/-- A service record with one load-balancer ingress entry carrying ip "1.2.3.4". -/
def svcIngressIP : Value :=
  Value.obj [("status", Value.obj [("loadBalancer", Value.obj
    [("ingress", Value.arr [Value.obj [("ip", Value.str "1.2.3.4")]])])])]

/-- A service record whose ingress array is present but empty. -/
def svcIngressEmpty : Value :=
  Value.obj [("status", Value.obj [("loadBalancer", Value.obj
    [("ingress", Value.arr [])])])]

/-- A service record with one ingress entry that carries neither ip nor hostname. -/
def svcIngressNoIP : Value :=
  Value.obj [("status", Value.obj [("loadBalancer", Value.obj
    [("ingress", Value.arr [Value.obj []])])])]

/-! ### Claim theorems -/

/-- C1 counterexample: the pods STATUS column is produced by the registry, yet on a
record whose status.phase is present but empty, `ExtractColumnValue` returns the empty
string — neither a non-empty display string nor the column's configured default
"<unknown>". -/
theorem extract_can_return_empty_non_default :
    (⟨"STATUS", "status.phase", "<unknown>"⟩ : ColumnDefinition) ∈ GetResourceColumns "pods" ∧
    ExtractColumnValue podEmptyPhase ⟨"STATUS", "status.phase", "<unknown>"⟩ 0 = "" ∧
    (⟨"STATUS", "status.phase", "<unknown>"⟩ : ColumnDefinition).DefaultValue ≠ "" :=
  ⟨by decide, by decide, by decide⟩

/-- C1 (amended): for every record and registry column, `ExtractColumnValue` totally
returns a display string or the column's configured default and never signals failure,
but the string is not guaranteed non-empty — a record whose own field values are empty
or unusable can render as the empty string; on a record from which none of the column's
fields can be read (the empty record), the result is always a non-empty sentinel or the
default, independently of the clock. -/
theorem extract_registry_empty_record_nonempty :
    ∀ (resourceType : String) (c : ColumnDefinition) (now : Int),
      c ∈ GetResourceColumns resourceType → ExtractColumnValue emptyObj c now ≠ "" := by
  intro rt c now hc
  rw [ExtractColumnValue_empty_now]
  unfold GetResourceColumns at hc
  cases h : List.lookup (lowerStr rt) resourceColumnsTable with
  | none =>
    rw [h] at hc
    simp only [List.mem_singleton] at hc
    subst hc
    decide
  | some cols =>
    rw [h] at hc
    exact registry_cols_empty_nonempty (lowerStr rt, cols) (lookup_mem h) c hc

/-- C1 witness: the pods READY column on the empty record. -/
theorem extract_registry_empty_record_nonempty_witness :
    ExtractColumnValue emptyObj ⟨"READY", "status.containerStatuses", "<unknown>"⟩ 0 ≠ "" :=
  extract_registry_empty_record_nonempty "pods"
    ⟨"READY", "status.containerStatuses", "<unknown>"⟩ 0 (by decide)

/-- C2: on a successfully queried catalog the resolver is total; with no catalog match
it returns the static default table's descriptor for the normalized name with
namespaced forced to true; when the static table also misses, the heuristic
{group "", version "v1", resource normalized} applies; in particular
resolve(empty catalog, "po") = {group "", version "v1", resource "pods",
namespaced true}. -/
theorem DiscoverGVR_fallback :
    (∀ resourceType, DiscoverGVR [] resourceType =
        (getDefaultGVR (normalizeResourceType resourceType), true)) ∧
    (∀ catalog resourceType,
        discoverScanCatalog catalog (normalizeResourceType resourceType) = none →
        DiscoverGVR catalog resourceType =
          (getDefaultGVR (normalizeResourceType resourceType), true)) ∧
    (∀ s, List.lookup s defaultGVRTable = none → getDefaultGVR s = ⟨"", "v1", s⟩) ∧
    DiscoverGVR [] "po" = (⟨"", "v1", "pods"⟩, true) := by
  refine ⟨fun rt => rfl, fun catalog rt h => ?_, fun s h => ?_, by decide⟩
  · unfold DiscoverGVR
    simp only [h]
  · unfold getDefaultGVR
    simp only [h]

/-- C2 witness: a non-matching catalog plus an unknown resource type falls through both
the scan and the static table to the heuristic descriptor. -/
theorem DiscoverGVR_fallback_witness :
    DiscoverGVR [⟨"apps/v1", []⟩] "widget" = (⟨"", "v1", "widgets"⟩, true) ∧
    getDefaultGVR "widgets" = ⟨"", "v1", "widgets"⟩ :=
  ⟨DiscoverGVR_fallback.2.1 [⟨"apps/v1", []⟩] "widget" (by decide),
   DiscoverGVR_fallback.2.2.1 "widgets" (by decide)⟩

/-- C3: the registry lookup is case-insensitive; "pods" yields exactly
[READY, STATUS, RESTARTS, AGE] in order, "services" exactly
[TYPE, CLUSTER-IP, EXTERNAL-IP, PORT(S), AGE], and every unknown resource type yields
exactly the single AGE column with path metadata.creationTimestamp and default
"<unknown>". -/
theorem GetResourceColumns_spec :
    (GetResourceColumns "pods").map ColumnDefinition.Name =
        ["READY", "STATUS", "RESTARTS", "AGE"] ∧
    (GetResourceColumns "services").map ColumnDefinition.Name =
        ["TYPE", "CLUSTER-IP", "EXTERNAL-IP", "PORT(S)", "AGE"] ∧
    (∀ r1 r2, lowerStr r1 = lowerStr r2 → GetResourceColumns r1 = GetResourceColumns r2) ∧
    (∀ resourceType, List.lookup (lowerStr resourceType) resourceColumnsTable = none →
        GetResourceColumns resourceType =
          [⟨"AGE", "metadata.creationTimestamp", "<unknown>"⟩]) := by
  refine ⟨by decide, by decide, fun r1 r2 h => ?_, fun rt h => ?_⟩
  · unfold GetResourceColumns
    rw [h]
  · unfold GetResourceColumns
    simp only [h]

/-- C3 witness: a mixed-case lookup and an unknown resource type. -/
theorem GetResourceColumns_spec_witness :
    GetResourceColumns "PODS" = GetResourceColumns "pods" ∧
    GetResourceColumns "unknown-resource" =
      [⟨"AGE", "metadata.creationTimestamp", "<unknown>"⟩] :=
  ⟨GetResourceColumns_spec.2.2.1 "PODS" "pods" (by decide),
   GetResourceColumns_spec.2.2.2 "unknown-resource" (by decide)⟩

/-- C4: every alias maps to its canonical plural (case-insensitively), and every input
missing from the alias table is lower-cased with "s" appended unless it already ends
in "s"; in particular normalize("po") = "pods", normalize("cm") = "configmaps",
normalize("widget") = "widgets" and normalize("widgets") = "widgets". -/
theorem normalizeResourceType_spec :
    (∀ p ∈ aliasTable, normalizeResourceType p.1 = p.2) ∧
    (∀ r1 r2, lowerStr r1 = lowerStr r2 →
        normalizeResourceType r1 = normalizeResourceType r2) ∧
    normalizeResourceType "po" = "pods" ∧
    normalizeResourceType "cm" = "configmaps" ∧
    (∀ s, List.lookup (lowerStr s) aliasTable = none →
        normalizeResourceType s =
          (if hasSuffix (lowerStr s) "s" then lowerStr s else lowerStr s ++ "s")) ∧
    normalizeResourceType "widget" = "widgets" ∧
    normalizeResourceType "widgets" = "widgets" := by
  refine ⟨by decide, fun r1 r2 h => ?_, by decide, by decide, fun s h => ?_,
    by decide, by decide⟩
  · unfold normalizeResourceType
    rw [h]
  · unfold normalizeResourceType
    simp only [h]

/-- C4 witness: an alias, a mixed-case alias, and an unknown input. -/
theorem normalizeResourceType_spec_witness :
    normalizeResourceType "deploy" = "deployments" ∧
    normalizeResourceType "Po" = normalizeResourceType "po" ∧
    normalizeResourceType "widget" =
      (if hasSuffix (lowerStr "widget") "s" then lowerStr "widget"
       else lowerStr "widget" ++ "s") :=
  ⟨normalizeResourceType_spec.1 ("deploy", "deployments") (by decide),
   normalizeResourceType_spec.2.1 "Po" "po" (by decide),
   normalizeResourceType_spec.2.2.2.2.1 "widget" (by decide)⟩

/-- C5 counterexample: the get command's `formatLabels` (pkg/cmd/get/common.go) joins in
map-iteration order without sorting, so two iteration orders of the same two-entry map
render differently — the output claimed to be deterministic and sorted is neither. -/
theorem formatLabels_order_dependent :
    List.Perm [("b", "2"), ("a", "1")] [("a", "1"), ("b", "2")] ∧
    formatLabels [("b", "2"), ("a", "1")] = "b=2,a=1" ∧
    formatLabels [("a", "1"), ("b", "2")] = "a=1,b=2" ∧
    formatLabels [("b", "2"), ("a", "1")] ≠ formatLabels [("a", "1"), ("b", "2")] :=
  ⟨List.Perm.swap ("a", "1") ("b", "2") [], by decide, by decide, by decide⟩

/-- C5 (amended): `FormatLabels` (pkg/util) renders "<none>" for the empty map and
otherwise comma-joins the "key=value" renderings sorted lexicographically, so its output
is deterministic (invariant under the map's iteration order); the get command's
`formatLabels` also renders "<none>" for the empty map but joins unsorted, in iteration
order, so for multi-entry maps its output depends on that order. -/
theorem FormatLabels_deterministic :
    FormatLabels [] = "<none>" ∧
    FormatLabels [("b", "2"), ("a", "1")] = "a=1,b=2" ∧
    (∀ l1 l2, List.Perm l1 l2 → FormatLabels l1 = FormatLabels l2) ∧
    formatLabels [] = "<none>" := by
  refine ⟨by decide, by decide, fun l1 l2 h => ?_, by decide⟩
  unfold FormatLabels
  have hlen := h.length_eq
  by_cases h0 : l1.length = 0
  · rw [if_pos h0, if_pos (hlen ▸ h0)]
  · rw [if_neg h0, if_neg (fun hx => h0 (hlen ▸ hx))]
    congr 1
    haveI : IsTotal String (fun a b => goStringLe a b = true) :=
      ⟨fun a b => charListLe_total a.data b.data⟩
    haveI : IsTrans String (fun a b => goStringLe a b = true) :=
      ⟨fun a b c => charListLe_trans a.data b.data c.data⟩
    haveI : IsAntisymm String (fun a b => goStringLe a b = true) :=
      ⟨fun a b h1 h2 => goStringLe_antisymm a b h1 h2⟩
    have hperm :
        (List.insertionSort (fun a b => goStringLe a b = true)
            (l1.map fun p => p.1 ++ "=" ++ p.2)).Perm
          (List.insertionSort (fun a b => goStringLe a b = true)
            (l2.map fun p => p.1 ++ "=" ++ p.2)) :=
      (List.perm_insertionSort _ _).trans
        ((h.map _).trans (List.perm_insertionSort _ _).symm)
    exact List.eq_of_perm_of_sorted hperm
      (List.sorted_insertionSort _ _) (List.sorted_insertionSort _ _)

/-- C5 witness: sorted-formatting invariance on the two iteration orders of the same
map. -/
theorem FormatLabels_deterministic_witness :
    FormatLabels [("b", "2"), ("a", "1")] = FormatLabels [("a", "1"), ("b", "2")] :=
  FormatLabels_deterministic.2.2.1 [("b", "2"), ("a", "1")] [("a", "1"), ("b", "2")]
    (List.Perm.swap ("a", "1") ("b", "2") [])

/-- C6 counterexample: "roles" is a key of the Column Schema Registry's table, yet the
resolver's static default table has no entry for it — the fallback instead synthesizes
the core-group heuristic descriptor. -/
theorem defaultGVRTable_missing_registry_key :
    (List.lookup "roles" resourceColumnsTable).isSome = true ∧
    List.lookup "roles" defaultGVRTable = none ∧
    getDefaultGVR "roles" = ⟨"", "v1", "roles"⟩ :=
  ⟨rfl, by decide, by decide⟩

/-- C6 (amended): the static default descriptor table covers the registry's column-table
keys except exactly resourcequotas, limitranges, networkpolicies, roles, storageclasses
and events, which fall through to the heuristic descriptor
{group "", version "v1", resource key}. -/
theorem defaultGVRTable_registry_coverage :
    ((resourceColumnsTable.map Prod.fst).filter
        (fun k => (List.lookup k defaultGVRTable).isNone)) =
      ["resourcequotas", "limitranges", "networkpolicies", "roles", "storageclasses",
       "events"] ∧
    (["resourcequotas", "limitranges", "networkpolicies", "roles", "storageclasses",
        "events"].all
      (fun k => getDefaultGVR k == ⟨"", "v1", k⟩)) = true :=
  ⟨by decide, by decide⟩

/-- C7: an API-resource descriptor matches the normalized type string iff its plural
name, singular name, or any short name equals it case-insensitively; the first match in
catalog iteration order wins, and the returned descriptor takes group and version from
the owning group-version, the matched plural name, and the match's declared scope. -/
theorem DiscoverGVR_match_spec :
    (∀ r t, matchesResourceType r t = true ↔
        (eqFold r.Name t = true ∨ eqFold r.SingularName t = true ∨
          ∃ s ∈ r.ShortNames, eqFold s t = true)) ∧
    (∀ gvStr g v r rs rest resourceType,
        ParseGroupVersion gvStr = some (g, v) →
        matchesResourceType r (normalizeResourceType resourceType) = true →
        DiscoverGVR (⟨gvStr, r :: rs⟩ :: rest) resourceType =
          (⟨g, v, r.Name⟩, r.Namespaced)) ∧
    (∀ gvStr r rs rest resourceType,
        matchesResourceType r (normalizeResourceType resourceType) = false →
        DiscoverGVR (⟨gvStr, r :: rs⟩ :: rest) resourceType =
          DiscoverGVR (⟨gvStr, rs⟩ :: rest) resourceType) ∧
    (∀ gvStr rest resourceType,
        DiscoverGVR (⟨gvStr, []⟩ :: rest) resourceType = DiscoverGVR rest resourceType) := by
  refine ⟨fun r t => ?_, fun gvStr g v r rs rest rt hparse hmatch => ?_,
    fun gvStr r rs rest rt hmatch => ?_, fun gvStr rest rt => ?_⟩
  · simp [matchesResourceType, List.any_eq_true, or_assoc]
  · unfold DiscoverGVR
    simp only [discoverScanCatalog, discoverScanResources, hparse, hmatch, if_true]
  · unfold DiscoverGVR
    simp only [discoverScanCatalog]
    cases hp : ParseGroupVersion gvStr with
    | none => rfl
    | some gv =>
      obtain ⟨g, v⟩ := gv
      simp only [discoverScanResources, hmatch, Bool.false_eq_true, if_false]
  · unfold DiscoverGVR
    simp only [discoverScanCatalog]
    cases hp : ParseGroupVersion gvStr with
    | none => rfl
    | some gv =>
      obtain ⟨g, v⟩ := gv
      simp only [discoverScanResources]

/-- C7 witness: with the same deployments descriptor installed in two group-versions,
the first catalog entry wins and supplies group, version, plural name and scope; a
non-matching descriptor ahead in the same list is skipped. -/
theorem DiscoverGVR_match_spec_witness :
    DiscoverGVR
        [⟨"apps/v1", [⟨"deployments", "deployment", ["deploy"], true⟩]⟩,
         ⟨"extensions/v1beta1", [⟨"deployments", "deployment", ["deploy"], true⟩]⟩]
        "deploy" =
      (⟨"apps", "v1", "deployments"⟩, true) ∧
    DiscoverGVR
        [⟨"v1", [⟨"services", "service", ["svc"], true⟩, ⟨"pods", "pod", ["po"], true⟩]⟩]
        "po" =
      DiscoverGVR [⟨"v1", [⟨"pods", "pod", ["po"], true⟩]⟩] "po" :=
  ⟨DiscoverGVR_match_spec.2.1 "apps/v1" "apps" "v1" ⟨"deployments", "deployment", ["deploy"], true⟩
      [] [⟨"extensions/v1beta1", [⟨"deployments", "deployment", ["deploy"], true⟩]⟩]
      "deploy" (by decide) (by decide),
   DiscoverGVR_match_spec.2.2.1 "v1" ⟨"services", "service", ["svc"], true⟩
      [⟨"pods", "pod", ["po"], true⟩] [] "po" (by decide)⟩

/-- C8: when status.startTime and status.completionTime are both present and parse, the
DURATION extraction renders exactly completion minus start, independently of the wall
clock and reproducibly; a missing or unparseable startTime yields "<unknown>"; the
concrete 90-second case renders "1m30s". -/
theorem extractDuration_spec :
    (∀ obj now ss cs s c,
        NestedString obj ["status", "startTime"] = some ss →
        NestedString obj ["status", "completionTime"] = some cs →
        parseRFC3339 ss = some s → parseRFC3339 cs = some c →
        extractDurationValue obj now = goDurationString (c - s)) ∧
    (∀ obj now1 now2 ss cs s c,
        NestedString obj ["status", "startTime"] = some ss →
        NestedString obj ["status", "completionTime"] = some cs →
        parseRFC3339 ss = some s → parseRFC3339 cs = some c →
        extractDurationValue obj now1 = extractDurationValue obj now2) ∧
    (∀ obj now, NestedString obj ["status", "startTime"] = none →
        extractDurationValue obj now = "<unknown>") ∧
    (∀ obj now ss, NestedString obj ["status", "startTime"] = some ss →
        parseRFC3339 ss = none → extractDurationValue obj now = "<unknown>") ∧
    extractDurationValue jobRecord90 12345 = goDurationString 90 ∧
    goDurationString 90 = "1m30s" := by
  have hmain : ∀ (obj : Value) (now : Int) ss cs s c,
      NestedString obj ["status", "startTime"] = some ss →
      NestedString obj ["status", "completionTime"] = some cs →
      parseRFC3339 ss = some s → parseRFC3339 cs = some c →
      extractDurationValue obj now = goDurationString (c - s) := by
    intro obj now ss cs s c h1 h2 h3 h4
    unfold extractDurationValue
    simp only [h1, h2, h3, h4]
  refine ⟨hmain, fun obj now1 now2 ss cs s c h1 h2 h3 h4 => ?_,
    fun obj now h => ?_, fun obj now ss h1 h2 => ?_, by decide, by decide⟩
  · rw [hmain obj now1 ss cs s c h1 h2 h3 h4, hmain obj now2 ss cs s c h1 h2 h3 h4]
  · unfold extractDurationValue
    simp only [h]
  · unfold extractDurationValue
    simp only [h1, h2]

/-- C8 witness: the 90-second job record at two different clock readings. -/
theorem extractDuration_spec_witness :
    extractDurationValue jobRecord90 777 = goDurationString (1704067290 - 1704067200) ∧
    extractDurationValue jobRecord90 777 = extractDurationValue jobRecord90 888 :=
  ⟨extractDuration_spec.1 jobRecord90 777 "2024-01-01T00:00:00Z" "2024-01-01T00:01:30Z"
      1704067200 1704067290 rfl rfl (by decide) (by decide),
   extractDuration_spec.2.1 jobRecord90 777 888 "2024-01-01T00:00:00Z"
      "2024-01-01T00:01:30Z" 1704067200 1704067290 rfl rfl (by decide) (by decide)⟩

/-- C9 counterexample: a load-balancer ingress array that is present but empty yields no
usable value, yet the extraction returns "<none>", not the claimed "<pending>". -/
theorem extractExternalIP_empty_array :
    NestedSlice svcIngressEmpty ["status", "loadBalancer", "ingress"] = some [] ∧
    extractExternalIPValue svcIngressEmpty = "<none>" ∧
    extractExternalIPValue svcIngressEmpty ≠ "<pending>" :=
  ⟨rfl, by decide, by decide⟩

/-- C9 (amended): per ingress entry the extraction takes the ip if present and otherwise
the hostname, comma-joining across all entries; when the ingress array is present and
non-empty but yields no usable value it returns "<pending>"; when the array is absent or
empty (and regardless of configured external IPs) it returns "<none>"; in particular
ingress [with ip "1.2.3.4"] yields "1.2.3.4". -/
theorem extractExternalIP_spec :
    (∀ obj, NestedSlice obj ["status", "loadBalancer", "ingress"] = none →
        extractExternalIPValue obj = "<none>") ∧
    (∀ obj, NestedSlice obj ["status", "loadBalancer", "ingress"] = some [] →
        extractExternalIPValue obj = "<none>") ∧
    (∀ obj l, NestedSlice obj ["status", "loadBalancer", "ingress"] = some l →
        l.length ≠ 0 → collectIngressIPs l = [] →
        extractExternalIPValue obj = "<pending>") ∧
    (∀ obj l, NestedSlice obj ["status", "loadBalancer", "ingress"] = some l →
        l.length ≠ 0 → collectIngressIPs l ≠ [] →
        extractExternalIPValue obj = joinComma (collectIngressIPs l)) ∧
    extractExternalIPValue svcIngressIP = "1.2.3.4" ∧
    extractExternalIPValue svcIngressNoIP = "<pending>" := by
  refine ⟨fun obj h => ?_, fun obj h => ?_, fun obj l h hlen hips => ?_,
    fun obj l h hlen hips => ?_, by decide, by decide⟩
  · unfold extractExternalIPValue
    simp only [h]
  · unfold extractExternalIPValue
    simp [h]
  · unfold extractExternalIPValue
    simp only [h, if_neg hlen, hips, List.length_nil]
    rfl
  · unfold extractExternalIPValue
    have hpos : (collectIngressIPs l).length > 0 := List.length_pos.mpr hips
    simp only [h, if_neg hlen, if_pos hpos]

/-- C9 witness: the spec conjuncts applied at the three concrete service records. -/
theorem extractExternalIP_spec_witness :
    extractExternalIPValue emptyObj = "<none>" ∧
    extractExternalIPValue svcIngressNoIP = "<pending>" ∧
    extractExternalIPValue svcIngressIP = joinComma ["1.2.3.4"] :=
  ⟨extractExternalIP_spec.1 emptyObj rfl,
   extractExternalIP_spec.2.2.1 svcIngressNoIP [Value.obj []] rfl (by decide) rfl,
   extractExternalIP_spec.2.2.2.1 svcIngressIP [Value.obj [("ip", Value.str "1.2.3.4")]]
      rfl (by decide) (by simp [collectIngressIPs])⟩

/-- C10 counterexample: "TYPE" is a specialized extractor key, yet two TYPE columns that
differ only in JSONPath extract differently on the same record — an empty JSONPath
short-circuits to the configured default before any dispatch. -/
theorem extract_name_dispatch_counterexample :
    (List.lookup "TYPE" extractorTable).isSome = true ∧
    ExtractColumnValue emptyObj ⟨"TYPE", "", "<unknown>"⟩ 0 = "<unknown>" ∧
    ExtractColumnValue emptyObj ⟨"TYPE", "type", "<unknown>"⟩ 0 = "ClusterIP" ∧
    ExtractColumnValue emptyObj ⟨"TYPE", "", "<unknown>"⟩ 0 ≠
      ExtractColumnValue emptyObj ⟨"TYPE", "type", "<unknown>"⟩ 0 :=
  ⟨rfl, by decide, by decide, by decide⟩

/-- C10 (amended): for column definitions with a non-empty JSONPath whose display name
is a specialized extractor key, the result depends only on the record and the name —
JSONPath and DefaultValue are ignored; columns with an empty JSONPath return their
configured default unconditionally; in particular the events registry's TYPE column
(default "<unknown>") yields "ClusterIP" on a record with no spec.type field. -/
theorem extract_name_determined :
    (∀ obj now (c1 c2 : ColumnDefinition), c1.Name = c2.Name →
        (List.lookup c1.Name extractorTable).isSome = true →
        c1.JSONPath ≠ "" → c2.JSONPath ≠ "" →
        ExtractColumnValue obj c1 now = ExtractColumnValue obj c2 now) ∧
    (∀ c : ColumnDefinition, c.JSONPath = "" →
        ∀ obj now, ExtractColumnValue obj c now = c.DefaultValue) ∧
    (∀ obj now, NestedString obj ["spec", "type"] = none →
        ExtractColumnValue obj ⟨"TYPE", "type", "<unknown>"⟩ now = "ClusterIP") ∧
    (⟨"TYPE", "type", "<unknown>"⟩ : ColumnDefinition) ∈ GetResourceColumns "events" := by
  refine ⟨fun obj now c1 c2 hname hsome h1 h2 => ?_, fun c hc obj now => ?_,
    fun obj now h => ?_, by decide⟩
  · simp only [ExtractColumnValue, if_neg h1, if_neg h2, hname]
    rw [hname] at hsome
    cases hl : List.lookup c2.Name extractorTable with
    | none => rw [hl] at hsome; simp at hsome
    | some extractor => simp only [hl]
  · simp [ExtractColumnValue, hc]
  · have e : ExtractColumnValue obj ⟨"TYPE", "type", "<unknown>"⟩ now =
        extractTypeValue obj := rfl
    rw [e]
    unfold extractTypeValue
    simp only [h]

/-- C10 witness: two READY columns differing in path and default agree on the empty
record; the empty-path rule and the events TYPE instance at concrete inputs. -/
theorem extract_name_determined_witness :
    ExtractColumnValue emptyObj ⟨"READY", "status.containerStatuses", "<unknown>"⟩ 0 =
      ExtractColumnValue emptyObj ⟨"READY", "other.path", "X"⟩ 0 ∧
    ExtractColumnValue emptyObj ⟨"OBJECT", "", "<unknown>"⟩ 3 = "<unknown>" ∧
    ExtractColumnValue emptyObj ⟨"TYPE", "type", "<unknown>"⟩ 5 = "ClusterIP" :=
  ⟨extract_name_determined.1 emptyObj 0 ⟨"READY", "status.containerStatuses", "<unknown>"⟩
      ⟨"READY", "other.path", "X"⟩ rfl rfl (by decide) (by decide),
   extract_name_determined.2.1 ⟨"OBJECT", "", "<unknown>"⟩ rfl emptyObj 3,
   extract_name_determined.2.2.1 emptyObj 5 rfl⟩
